import Mathlib

/-!
# Verification of the Light Bulb Power Puzzle core (`LBPP.py`)

This file gives a shallow embedding of the core data model and operations of
the grid-based connectivity puzzle implemented in `LBPP.py`:

* the direction / connection tables (`ROTATIONS`, `POWER_SOURCE_CONNECTIONS`,
  `CONNECTION_MAPS`),
* the `Tile` state and its operations (`rotate`, `get_connections`,
  `is_connected_to`),
* the `PuzzleGame` grid with position arithmetic
  (`is_valid_position`, `get_neighbor_position`, `get_opposite_direction`),
* the connectivity finalizer (`fix_pipe_connections`),
* the power-flow solver (`update_power_flow`, `check_no_leaks`),
* the interaction handler (`handle_click`) and the power-source placement
  fragment of `generate_puzzle`.

The Python grid is a `height × width` array of mutable tiles; we model it as a
total function from integer coordinates to tiles together with the `width` and
`height` bounds, and model each mutation by function override.  Python list
indexing that would raise `IndexError` on malformed tiles is totalized with
`List.getD _ []`; well-formedness (`Tile.WF`) marks the domain on which the
Python code is exception-free.  Randomness is modelled by explicit draw
arguments: `random.randint(lo, hi)` applied to a raw draw `r` yields
`lo + r % (hi + 1 - lo)`, which ranges over exactly the interval `[lo, hi]`.
-/

namespace LBPP

/-- `class Direction(Enum)`: UP = 0, RIGHT = 1, DOWN = 2, LEFT = 3. -/
inductive Direction : Type
  | up
  | right
  | down
  | left
deriving DecidableEq, Fintype

/-- The ordinal value of a direction (the Python enum value). -/
def Direction.val : Direction → Nat
  | .up => 0
  | .right => 1
  | .down => 2
  | .left => 3

/-- The direction with a given ordinal value; mirrors the Python enum
constructor `Direction(n)` on the values `0..3` actually passed to it. -/
def Direction.ofVal : Nat → Direction
  | 0 => .up
  | 1 => .right
  | 2 => .down
  | _ => .left

/-- Iteration order of `for direction in Direction:` in Python. -/
def Direction.iterate : List Direction := [.up, .right, .down, .left]

/-- `class TileType(Enum)`. -/
inductive TileType : Type
  | empty
  | straight
  | elbow
  | tJunction
  | cross
  | powerSource
  | lightBulb
deriving DecidableEq, Fintype

/-- The `ROTATIONS` table: rotation cardinality of each variant. -/
def ROTATIONS : TileType → Nat
  | .straight => 2
  | .elbow => 4
  | .tJunction => 4
  | .cross => 1
  | .powerSource => 4
  | .lightBulb => 4
  | .empty => 1

/-- The 13-entry `POWER_SOURCE_CONNECTIONS` table of base open-direction
sets for power sources. -/
def POWER_SOURCE_CONNECTIONS : List (List Direction) :=
  [[.right],
   [.down],
   [.left],
   [.up],
   [.right, .down],
   [.down, .left],
   [.left, .up],
   [.up, .right],
   [.right, .down, .left],
   [.up, .down, .left],
   [.up, .right, .left],
   [.up, .right, .down],
   [.up, .right, .down, .left]]

/-- The `CONNECTION_MAPS` table: for each variant, the list (indexed by
rotation) of open-direction sets. -/
def CONNECTION_MAPS : TileType → List (List Direction)
  | .empty => [[]]
  | .straight => [[.up, .down], [.left, .right]]
  | .elbow => [[.down, .right], [.left, .down], [.up, .left], [.up, .right]]
  | .tJunction =>
      [[.left, .right, .down],
       [.up, .down, .left],
       [.left, .right, .up],
       [.up, .down, .right]]
  | .cross => [[.up, .right, .down, .left]]
  | .powerSource => [[.right], [.down], [.left], [.up]]
  | .lightBulb => [[.up], [.right], [.down], [.left]]

/-- The mutable per-cell state of `class Tile`.  `max_rotation` is a stored
field in the Python object (set from `ROTATIONS` at construction and at each
type rewrite), so it is a stored field here as well. -/
structure Tile : Type where
  tile_type : TileType
  max_rotation : Nat
  rotation : Nat
  is_powered : Bool
  used_in_solution : Bool
  power_connection_pattern : Option Nat
deriving DecidableEq

/-- `Tile.__init__(tile_type, rotation)`.  The random pattern draw for power
sources (`random.randint(0, 12)`) is made explicit as `patDraw`, consumed only
when the variant is `POWER_SOURCE`. -/
def Tile.init (tt : TileType) (rotation : Nat) (patDraw : Nat) : Tile :=
  { tile_type := tt
    max_rotation := ROTATIONS tt
    rotation := rotation % ROTATIONS tt
    is_powered := tt = TileType.powerSource
    used_in_solution := false
    power_connection_pattern :=
      if tt = TileType.powerSource then some (patDraw % 13) else none }

/-- `Tile.rotate()`: returns the updated tile together with the reported
success flag. -/
def Tile.rotate (t : Tile) : Tile × Bool :=
  if t.max_rotation > 1 then
    ({ t with rotation := (t.rotation + 1) % t.max_rotation }, true)
  else (t, false)

/-- `Tile.get_connections()`.  The Python guard is
`tile_type == POWER_SOURCE and power_connection_pattern is not None`; the
list-index accesses are totalized with `List.getD _ []`. -/
def Tile.get_connections (t : Tile) : List Direction :=
  if t.tile_type = TileType.powerSource then
    match t.power_connection_pattern with
    | some p =>
        (POWER_SOURCE_CONNECTIONS.getD p []).map
          (fun d => Direction.ofVal ((d.val + t.rotation) % 4))
    | none => (CONNECTION_MAPS t.tile_type).getD t.rotation []
  else (CONNECTION_MAPS t.tile_type).getD t.rotation []

/-- `Tile.is_connected_to(direction)`: membership test on the connection
list. -/
def Tile.is_connected_to (t : Tile) (d : Direction) : Bool :=
  decide (d ∈ t.get_connections)

/-- The data-model invariant stated in the specification: the stored
cardinality matches the table, the rotation is reduced, and the connection
pattern is a valid index present exactly for power sources.  On tiles
satisfying `Tile.WF` every Python list access in `get_connections` is in
range. -/
def Tile.WF (t : Tile) : Prop :=
  t.max_rotation = ROTATIONS t.tile_type ∧
  t.rotation < t.max_rotation ∧
  t.power_connection_pattern.getD 0 < 13 ∧
  (t.power_connection_pattern.isSome = true ↔ t.tile_type = TileType.powerSource)

instance (t : Tile) : Decidable t.WF := by
  unfold Tile.WF; infer_instance

/-- Grid positions, as signed coordinates (Python computes `y - 1` for the
`UP` neighbor, which can be negative). -/
abbrev Pos : Type := Int × Int

/-- A grid of tiles, total over signed coordinates; only positions inside
the `width × height` rectangle are ever meaningful. -/
abbrev Grid : Type := Pos → Tile

/-- Override a single cell of a grid (Python mutates the cell in place). -/
def setCell (g : Grid) (p : Pos) (t : Tile) : Grid :=
  fun q => if q = p then t else g q

/-- The puzzle state held by `class PuzzleGame` (rendering fields of the
Python class are outside the modelled core). -/
structure PuzzleGame : Type where
  width : Nat
  height : Nat
  grid : Grid
  power_sources : List Pos
  bulbs : List Pos
  is_solved : Bool

/-- `PuzzleGame.is_valid_position(x, y)`. -/
def is_valid_position (w h : Nat) (p : Pos) : Prop :=
  0 ≤ p.1 ∧ p.1 < (w : Int) ∧ 0 ≤ p.2 ∧ p.2 < (h : Int)

instance (w h : Nat) (p : Pos) : Decidable (is_valid_position w h p) := by
  unfold is_valid_position; infer_instance

/-- `PuzzleGame.get_neighbor_position(x, y, direction)`. -/
def get_neighbor_position (p : Pos) : Direction → Pos
  | .up => (p.1, p.2 - 1)
  | .right => (p.1 + 1, p.2)
  | .down => (p.1, p.2 + 1)
  | .left => (p.1 - 1, p.2)

/-- `PuzzleGame.get_opposite_direction(direction)`, the explicit lookup
dictionary of the Python code. -/
def get_opposite_direction : Direction → Direction
  | .up => .down
  | .right => .left
  | .down => .up
  | .left => .right

/-- Iterated `Tile.rotate()`, keeping the tile component. -/
def rotateN (t : Tile) : Nat → Tile
  | 0 => t
  | n + 1 => ((rotateN t n).rotate).1

/-! ### Power-flow solver (`update_power_flow`, `check_no_leaks`) -/

/-- The solver marks a popped cell: `is_powered = True; used_in_solution =
True`. -/
def markTile (t : Tile) : Tile :=
  { t with is_powered := true, used_in_solution := true }

/-- The reset phase of `update_power_flow`: non-sources lose power, every
tile loses its `used_in_solution` flag.  Python only visits the in-bounds
cells, which are the only cells its grid has; values of the total function at
out-of-range coordinates are never read by any modelled operation. -/
def resetTile (t : Tile) : Tile :=
  { t with
      is_powered :=
        if t.tile_type = TileType.powerSource then t.is_powered else false,
      used_in_solution := false }

/-- Grid-wide reset. -/
def resetGrid (g : Grid) : Grid := fun p => resetTile (g p)

/-- One iteration of the solver's `for direction in
current_tile.get_connections()` loop at popped cell `p`: examine the neighbor
in direction `d` and, when it is in bounds, unvisited and reciprocally open,
append it to the queue and to the visited set.  The state is the pair
`(queue, visited)`. -/
def bfsConsider (g : Grid) (w h : Nat) (p : Pos)
    (qv : List Pos × List Pos) (d : Direction) : List Pos × List Pos :=
  let n := get_neighbor_position p d
  if ¬ is_valid_position w h n ∨ n ∈ qv.2 then qv
  else if (g n).is_connected_to (get_opposite_direction d) then
    (qv.1 ++ [n], qv.2 ++ [n])
  else qv

/-- The solver's `while queue:` loop, with explicit fuel.  Each pop marks the
cell powered and used, then scans its connections.  `update_power_flow`
passes fuel `width * height + 1`, which is shown below to exceed the number
of pops any run can perform. -/
def bfsRun (w h : Nat) : Nat → Grid → List Pos → List Pos → Grid × List Pos
  | 0, g, _, vis => (g, vis)
  | _ + 1, g, [], vis => (g, vis)
  | fuel + 1, g, p :: rest, vis =>
      let t := markTile (g p)
      let g1 := setCell g p t
      let qv := t.get_connections.foldl (bfsConsider g1 w h p) (rest, vis)
      bfsRun w h fuel g1 qv.1 qv.2

/-- The solver's `for source_x, source_y in self.power_sources:` loop: each
source seeds a fresh queue; the visited set is shared across sources
(`visited.add` on a Python set is a no-op for present elements). -/
def runSources (w h fuel : Nat) :
    List Pos → Grid → List Pos → Grid × List Pos
  | [], g, vis => (g, vis)
  | s :: rest, g, vis =>
      let vis1 := if s ∈ vis then vis else vis ++ [s]
      let gv := bfsRun w h fuel g [s] vis1
      runSources w h fuel rest gv.1 gv.2

/-- The body of `check_no_leaks` for one cell: if the tile is powered, every
open direction must lead to an in-bounds, non-Empty, reciprocating
neighbor. -/
def leakFreeCell (w h : Nat) (g : Grid) (p : Pos) : Bool :=
  !(g p).is_powered ||
    (g p).get_connections.all fun d =>
      let n := get_neighbor_position p d
      decide (is_valid_position w h n) &&
        (!decide ((g n).tile_type = TileType.empty) &&
          (g n).is_connected_to (get_opposite_direction d))

/-- `PuzzleGame.check_no_leaks()` on a grid with bounds `w × h`; the Python
early `return False` over the double loop is the same as this conjunction of
per-cell checks. -/
def check_no_leaks (w h : Nat) (g : Grid) : Bool :=
  (List.range h).all fun y =>
    (List.range w).all fun x => leakFreeCell w h g ((x : Int), (y : Int))

/-- `PuzzleGame.update_power_flow()`: reset, multi-source traversal, then
the three win predicates.  Returns the updated game together with the value
the Python method returns (which it also stores in `self.is_solved`). -/
def update_power_flow (game : PuzzleGame) : PuzzleGame × Bool :=
  let g1 := resetGrid game.grid
  let fuel := game.width * game.height + 1
  let gv := runSources game.width game.height fuel game.power_sources g1 []
  let g2 := gv.1
  let all_bulbs_lit := game.bulbs.all fun b => (g2 b).is_powered
  let all_pipes_used :=
    (List.range game.height).all fun y =>
      (List.range game.width).all fun x =>
        (g2 ((x : Int), (y : Int))).used_in_solution ||
          decide ((g2 ((x : Int), (y : Int))).tile_type = TileType.empty)
  let no_leaks := check_no_leaks game.width game.height g2
  let solved := all_bulbs_lit && (all_pipes_used && no_leaks)
  ({ game with grid := g2, is_solved := solved }, solved)

/-! ### Connectivity finalizer (`fix_pipe_connections`) -/

/-- The `neighbors` list built at the top of `fix_pipe_connections`: the
directions (in Python iteration order) whose in-bounds neighbor is non-Empty
and open toward the opposite direction. -/
def connectingNeighbors (w h : Nat) (g : Grid) (p : Pos) : List Direction :=
  Direction.iterate.filter fun d =>
    let n := get_neighbor_position p d
    decide (is_valid_position w h n) &&
      (!decide ((g n).tile_type = TileType.empty) &&
        (g n).is_connected_to (get_opposite_direction d))

/-- The tile rewrite performed by `fix_pipe_connections` once the `neighbors`
list is known.  Note that the zero-neighbor branch only assigns
`tile_type = EMPTY` and returns, leaving `rotation` and `max_rotation`
untouched — exactly as the Python code does. -/
def rewriteTile (neighbors : List Direction) (t : Tile) : Tile :=
  if neighbors = [] then { t with tile_type := TileType.empty }
  else if neighbors.length = 1 then
    { t with
        tile_type := TileType.lightBulb
        max_rotation := ROTATIONS TileType.lightBulb
        rotation :=
          match neighbors.headD Direction.up with
          | .up => 0
          | .right => 1
          | .down => 2
          | .left => 3 }
  else if neighbors.length = 2 then
    if (Direction.up ∈ neighbors ∧ Direction.down ∈ neighbors) ∨
        (Direction.left ∈ neighbors ∧ Direction.right ∈ neighbors) then
      { t with
          tile_type := TileType.straight
          max_rotation := ROTATIONS TileType.straight
          rotation := if Direction.up ∈ neighbors then 0 else 1 }
    else
      { t with
          tile_type := TileType.elbow
          max_rotation := ROTATIONS TileType.elbow
          rotation :=
            if Direction.down ∈ neighbors ∧ Direction.right ∈ neighbors then 0
            else if Direction.left ∈ neighbors ∧ Direction.down ∈ neighbors then 1
            else if Direction.up ∈ neighbors ∧ Direction.left ∈ neighbors then 2
            else if Direction.up ∈ neighbors ∧ Direction.right ∈ neighbors then 3
            else t.rotation }
  else if neighbors.length = 3 then
    { t with
        tile_type := TileType.tJunction
        max_rotation := ROTATIONS TileType.tJunction
        rotation :=
          if Direction.left ∈ neighbors ∧ Direction.right ∈ neighbors ∧
              Direction.down ∈ neighbors then 0
          else if Direction.up ∈ neighbors ∧ Direction.down ∈ neighbors ∧
              Direction.left ∈ neighbors then 1
          else if Direction.left ∈ neighbors ∧ Direction.right ∈ neighbors ∧
              Direction.up ∈ neighbors then 2
          else if Direction.up ∈ neighbors ∧ Direction.down ∈ neighbors ∧
              Direction.right ∈ neighbors then 3
          else t.rotation }
  else
    { t with
        tile_type := TileType.cross
        max_rotation := ROTATIONS TileType.cross
        rotation := 0 }

/-- `PuzzleGame.fix_pipe_connections(x, y)`. -/
def fix_pipe_connections (game : PuzzleGame) (x y : Int) : PuzzleGame :=
  { game with
      grid :=
        setCell game.grid (x, y)
          (rewriteTile
            (connectingNeighbors game.width game.height game.grid (x, y))
            (game.grid (x, y))) }

/-! ### Interaction handler (`handle_click`) -/

/-- `TILE_SIZE` used to turn a pixel position into a grid position. -/
def TILE_SIZE : Nat := 60

/-- `PuzzleGame.handle_click(pos)`.  The Python method returns `None` on
every path (it never returns `is_solved` and never raises on out-of-bounds
positions); the second component records that returned value, which would be
`some b` only if the method returned a boolean `b`. -/
def handle_click (game : PuzzleGame) (pos : Nat × Nat) :
    PuzzleGame × Option Bool :=
  let p : Pos := ((pos.1 / TILE_SIZE : Nat), (pos.2 / TILE_SIZE : Nat))
  if ¬ is_valid_position game.width game.height p then (game, none)
  else
    let rt := (game.grid p).rotate
    if rt.2 then
      ((update_power_flow { game with grid := setCell game.grid p rt.1 }).1,
        none)
    else (game, none)

/-! ### Power-source placement fragment of `generate_puzzle` -/

/-- `random.randint(lo, hi)` applied to a raw draw `r`: some value in
`[lo, hi]`, and every such value is realized by some draw. -/
def randint (lo hi r : Nat) : Nat := lo + r % (hi + 1 - lo)

/-- `num_sources = 1 + difficulty // 2`. -/
def num_sources (difficulty : Nat) : Nat := 1 + difficulty / 2

/-- `num_bulbs = 4 + difficulty * 10`. -/
def num_bulbs (difficulty : Nat) : Nat := 4 + difficulty * 10

/-- The `connections_count`-indexed choice of `source_type` in
`generate_puzzle` (count 1 → `randint(0, 3)`, count 2 → `randint(4, 7)`,
count 3 → `randint(8, 11)`, otherwise 12). -/
def source_pattern_index (count r : Nat) : Nat :=
  if count = 1 then randint 0 3 r
  else if count = 2 then randint 4 7 r
  else if count = 3 then randint 8 11 r
  else 12

/-- The `for i in range(num_sources)` placement loop of `generate_puzzle`:
pop the next shuffled position (`avail`), draw a connection count in `1..4`
and a pattern index in the matching sub-range, and place a `POWER_SOURCE`
tile with rotation 0 and that pattern, recording the position.  The random
draws consumed per source are made explicit as the `draws` list. -/
def place_power_sources :
    PuzzleGame → Nat → List Pos → List (Nat × Nat) → PuzzleGame
  | game, 0, _, _ => game
  | game, _ + 1, [], _ => game
  | game, n + 1, p :: avail, draws =>
      let r := draws.headD (0, 0)
      let count := randint 1 4 r.1
      let stype := source_pattern_index count r.2
      let t :=
        { Tile.init TileType.powerSource 0 0 with
            power_connection_pattern := some stype }
      place_power_sources
        { game with
            grid := setCell game.grid p t
            power_sources := game.power_sources ++ [p] }
        n avail draws.tail

/-- The sub-range of the 13 base patterns that belongs to a given connection
count, as described in the specification. -/
def patternRange (count i : Nat) : Prop :=
  (count = 1 ∧ i ≤ 3) ∨
  (count = 2 ∧ 4 ≤ i ∧ i ≤ 7) ∨
  (count = 3 ∧ 8 ≤ i ∧ i ≤ 11) ∨
  (count = 4 ∧ i = 12)

/-! ### Specification-level predicates -/

/-- A reciprocally open edge of the grid: the tile at `p` lists `d`, the
neighbor in direction `d` is in bounds and lists the opposite direction. -/
def Edge (w h : Nat) (g : Grid) (p q : Pos) : Prop :=
  ∃ d : Direction,
    d ∈ (g p).get_connections ∧
    q = get_neighbor_position p d ∧
    is_valid_position w h q ∧
    get_opposite_direction d ∈ (g q).get_connections

/-- Reachability from some cell of `srcs` through reciprocally open edges.
This is a property of the grid alone; it does not depend on any traversal
order. -/
inductive Reach (w h : Nat) (g : Grid) (srcs : List Pos) : Pos → Prop
  | src : ∀ p, p ∈ srcs → Reach w h g srcs p
  | step : ∀ p q, Reach w h g srcs p → Edge w h g p q → Reach w h g srcs q

/-- The specification's `no_leaks` predicate: every powered tile's every open
direction points to an in-bounds, non-Empty neighbor open toward the opposite
direction. -/
def NoLeaks (w h : Nat) (g : Grid) : Prop :=
  ∀ x : Nat, x < w → ∀ y : Nat, y < h →
    (g ((x : Int), (y : Int))).is_powered = true →
    ∀ d ∈ (g ((x : Int), (y : Int))).get_connections,
      is_valid_position w h (get_neighbor_position ((x : Int), (y : Int)) d) ∧
      (g (get_neighbor_position ((x : Int), (y : Int)) d)).tile_type ≠
        TileType.empty ∧
      get_opposite_direction d ∈
        (g (get_neighbor_position ((x : Int), (y : Int)) d)).get_connections

instance (w h : Nat) (g : Grid) : Decidable (NoLeaks w h g) :=
  Nat.decidableBallLT w fun x _ =>
    ∀ y : Nat, y < h →
      (g ((x : Int), (y : Int))).is_powered = true →
      ∀ d ∈ (g ((x : Int), (y : Int))).get_connections,
        is_valid_position w h (get_neighbor_position ((x : Int), (y : Int)) d) ∧
        (g (get_neighbor_position ((x : Int), (y : Int)) d)).tile_type ≠
          TileType.empty ∧
        get_opposite_direction d ∈
          (g (get_neighbor_position ((x : Int), (y : Int)) d)).get_connections

/-- Well-formedness of every in-bounds tile of a game. -/
def GridWF (game : PuzzleGame) : Prop :=
  ∀ x : Nat, x < game.width → ∀ y : Nat, y < game.height →
    Tile.WF (game.grid ((x : Int), (y : Int)))

instance (game : PuzzleGame) : Decidable (GridWF game) :=
  Nat.decidableBallLT game.width fun x _ =>
    ∀ y : Nat, y < game.height → Tile.WF (game.grid ((x : Int), (y : Int)))

/-- The finite set of in-bounds positions of a `w × h` grid; its cardinality
`w * h` bounds the number of cells the solver can ever visit. -/
def validCells (w h : Nat) : Finset Pos :=
  Finset.Icc 0 ((w : Int) - 1) ×ˢ Finset.Icc 0 ((h : Int) - 1)

/-! ### Concrete games used to witness the theorems

`game3` is the 3×1 scenario of the specification's scramble-then-solve test:
a power source at `(0,0)` whose pattern opens only `RIGHT`, a horizontal
straight pipe at `(1,0)`, and a light bulb at `(2,0)` facing left. -/

/-- An `EMPTY` tile. -/
def emptyTile : Tile := Tile.init TileType.empty 0 0

/-- A power source whose base pattern is entry 0, `[RIGHT]`. -/
def sourceTile3 : Tile :=
  { Tile.init TileType.powerSource 0 0 with power_connection_pattern := some 0 }

/-- A horizontal straight pipe (`rotation = 1`: `[LEFT, RIGHT]`). -/
def straightTile3 : Tile := Tile.init TileType.straight 1 0

/-- A light bulb facing left (`rotation = 3`: `[LEFT]`). -/
def bulbTile3 : Tile := Tile.init TileType.lightBulb 3 0

/-- The 3×1 source–pipe–bulb chain. -/
def game3 : PuzzleGame :=
  { width := 3
    height := 1
    grid := fun p =>
      if p = ((0 : Int), (0 : Int)) then sourceTile3
      else if p = ((1 : Int), (0 : Int)) then straightTile3
      else if p = ((2 : Int), (0 : Int)) then bulbTile3
      else emptyTile
    power_sources := [((0 : Int), (0 : Int))]
    bulbs := [((2 : Int), (0 : Int))]
    is_solved := false }

/-- A 1×1 game holding a single straight pipe with rotation 1; its only cell
has no connecting neighbors. -/
def game1 : PuzzleGame :=
  { width := 1
    height := 1
    grid := fun p =>
      if p = ((0 : Int), (0 : Int)) then straightTile3 else emptyTile
    power_sources := []
    bulbs := []
    is_solved := false }

/-- A 2×2 all-empty game, used as the starting state for source placement. -/
def gameE : PuzzleGame :=
  { width := 2
    height := 2
    grid := fun _ => emptyTile
    power_sources := []
    bulbs := []
    is_solved := false }

/-! ## Theorems -/

/-- Helper: iterating `rotate()` only changes the `rotation` field, by the
expected modular arithmetic (on tiles whose rotation is reduced). -/
theorem rotateN_eq (t : Tile) (hr : t.rotation < t.max_rotation) (n : Nat) :
    rotateN t n =
      { t with
          rotation :=
            if 1 < t.max_rotation then (t.rotation + n) % t.max_rotation
            else t.rotation } := by
  induction n with
  | zero =>
      by_cases h1 : 1 < t.max_rotation
      · simp [rotateN, h1, Nat.mod_eq_of_lt hr]
      · simp [rotateN, h1]
  | succ n ih =>
      show ((rotateN t n).rotate).1 = _
      rw [ih]
      by_cases h1 : 1 < t.max_rotation
      · simp only [h1, if_true, Tile.rotate, if_pos h1]
        have : ((t.rotation + n) % t.max_rotation + 1) % t.max_rotation =
            (t.rotation + (n + 1)) % t.max_rotation := by
          rw [Nat.mod_add_mod, Nat.add_assoc]
        simp [this]
      · simp only [h1, if_false, Tile.rotate, if_neg h1]

/-- Claim C6: a successful `rotate()` advances the rotation by exactly one
step modulo the variant's rotation cardinality and reports `true` when that
cardinality exceeds 1; on a cardinality-1 variant it reports `false` and
changes nothing; and applying `rotate()` a number of times equal to the
cardinality restores both the original rotation and the original
open-direction set. -/
theorem claim_C6_rotate_cycle (t : Tile) (hWF : t.WF) :
    (1 < ROTATIONS t.tile_type →
      t.rotate =
        ({ t with rotation := (t.rotation + 1) % ROTATIONS t.tile_type },
          true)) ∧
    (ROTATIONS t.tile_type = 1 → t.rotate = (t, false)) ∧
    (rotateN t (ROTATIONS t.tile_type)).rotation = t.rotation ∧
    (rotateN t (ROTATIONS t.tile_type)).get_connections = t.get_connections
    := by
  obtain ⟨hmax, hr, -, -⟩ := hWF
  have key : rotateN t (ROTATIONS t.tile_type) = t := by
    rw [← hmax, rotateN_eq t hr]
    by_cases h1 : 1 < t.max_rotation
    · simp [h1, Nat.add_mod_right, Nat.mod_eq_of_lt hr]
    · simp [h1]
  refine ⟨?_, ?_, by rw [key], by rw [key]⟩
  · intro h1
    rw [Tile.rotate, if_pos (by rw [hmax]; exact h1), hmax]
  · intro h1
    rw [Tile.rotate, if_neg (by rw [hmax, h1]; exact Nat.lt_irrefl 1)]

/-- Witness for C6 at a straight pipe. -/
theorem claim_C6_witness :
    (Tile.init TileType.straight 0 0).WF ∧
    (rotateN (Tile.init TileType.straight 0 0)
        (ROTATIONS (Tile.init TileType.straight 0 0).tile_type)).rotation =
      (Tile.init TileType.straight 0 0).rotation :=
  ⟨by decide,
    (claim_C6_rotate_cycle (Tile.init TileType.straight 0 0) (by decide)).2.2.1⟩

/-- Claim C7: a power source's connections are its base pattern rotated by
`(d + r) mod 4` on the ordinal encoding Up = 0, Right = 1, Down = 2,
Left = 3; every other variant reads the fixed `(variant, rotation)` table
entry; and the opposite direction is rotation by 2. -/
theorem claim_C7_connections_opposite :
    (∀ (t : Tile) (p : Nat), t.tile_type = TileType.powerSource →
        t.power_connection_pattern = some p → p < 13 → t.rotation < 4 →
        t.get_connections =
          (POWER_SOURCE_CONNECTIONS.getD p []).map
            (fun d => Direction.ofVal ((d.val + t.rotation) % 4))) ∧
    (∀ t : Tile, t.tile_type ≠ TileType.powerSource →
        t.get_connections = (CONNECTION_MAPS t.tile_type).getD t.rotation []) ∧
    (Direction.up.val = 0 ∧ Direction.right.val = 1 ∧
      Direction.down.val = 2 ∧ Direction.left.val = 3) ∧
    (∀ d : Direction,
        get_opposite_direction d = Direction.ofVal ((d.val + 2) % 4)) := by
  refine ⟨?_, ?_, by decide, ?_⟩
  · intro t p h1 h2 _ _
    rw [Tile.get_connections, if_pos h1, h2]
  · intro t h1
    rw [Tile.get_connections, if_neg h1]
  · intro d; cases d <;> rfl

/-- Witness for C7 at the `[RIGHT]`-pattern source and at `UP`. -/
theorem claim_C7_witness :
    sourceTile3.get_connections =
      (POWER_SOURCE_CONNECTIONS.getD 0 []).map
        (fun d => Direction.ofVal ((d.val + sourceTile3.rotation) % 4)) ∧
    get_opposite_direction Direction.up =
      Direction.ofVal ((Direction.up.val + 2) % 4) :=
  ⟨claim_C7_connections_opposite.1 sourceTile3 0 rfl rfl (by decide)
      (by decide),
    claim_C7_connections_opposite.2.2.2 Direction.up⟩

/-- Reading back an overridden cell. -/
theorem setCell_same (g : Grid) (p : Pos) (t : Tile) : setCell g p t p = t :=
  if_pos rfl

/-- Reading any other cell of an overridden grid. -/
theorem setCell_other (g : Grid) (p q : Pos) (t : Tile) (h : q ≠ p) :
    setCell g p t q = g q :=
  if_neg h

/-- Helper for C4: the tile rewrite is a round-trip on every direction set
that can arise as a filter of the four directions, and the variant chosen is
the one the specification describes. -/
theorem rewriteTile_filter_spec (f : Direction → Bool) (t : Tile) :
    (Direction.iterate.filter f = [] →
      (rewriteTile (Direction.iterate.filter f) t).tile_type =
        TileType.empty) ∧
    (Direction.iterate.filter f ≠ [] →
      (∀ d : Direction,
        d ∈ (rewriteTile (Direction.iterate.filter f) t).get_connections ↔
          d ∈ Direction.iterate.filter f) ∧
      ((Direction.iterate.filter f).length = 1 →
        (rewriteTile (Direction.iterate.filter f) t).tile_type =
          TileType.lightBulb) ∧
      ((Direction.iterate.filter f).length = 2 →
        (((Direction.up ∈ Direction.iterate.filter f ∧
            Direction.down ∈ Direction.iterate.filter f) ∨
          (Direction.left ∈ Direction.iterate.filter f ∧
            Direction.right ∈ Direction.iterate.filter f)) →
            (rewriteTile (Direction.iterate.filter f) t).tile_type =
              TileType.straight) ∧
        (¬ ((Direction.up ∈ Direction.iterate.filter f ∧
            Direction.down ∈ Direction.iterate.filter f) ∨
          (Direction.left ∈ Direction.iterate.filter f ∧
            Direction.right ∈ Direction.iterate.filter f)) →
            (rewriteTile (Direction.iterate.filter f) t).tile_type =
              TileType.elbow)) ∧
      ((Direction.iterate.filter f).length = 3 →
        (rewriteTile (Direction.iterate.filter f) t).tile_type =
          TileType.tJunction) ∧
      ((Direction.iterate.filter f).length = 4 →
        (rewriteTile (Direction.iterate.filter f) t).tile_type =
          TileType.cross ∧
        (rewriteTile (Direction.iterate.filter f) t).rotation = 0)) := by
  cases h0 : f Direction.up <;> cases h1 : f Direction.right <;>
    cases h2 : f Direction.down <;> cases h3 : f Direction.left <;>
      simp [Direction.iterate, List.filter_cons, h0, h1, h2, h3,
        rewriteTile, Tile.get_connections, CONNECTION_MAPS, ROTATIONS] <;>
      tauto

/-- Helper for C4, uniqueness: no other non-source `(variant, rotation)`
pair has the same connection set as the rewritten tile. -/
theorem rewriteTile_filter_unique (f : Direction → Bool) (t : Tile)
    (tt : TileType) (rot : Nat) (htt : tt ≠ TileType.powerSource)
    (hrot : rot < ROTATIONS tt)
    (hne : Direction.iterate.filter f ≠ [])
    (hiff : ∀ d : Direction,
      d ∈ (CONNECTION_MAPS tt).getD rot [] ↔
        d ∈ Direction.iterate.filter f) :
    tt = (rewriteTile (Direction.iterate.filter f) t).tile_type ∧
    rot = (rewriteTile (Direction.iterate.filter f) t).rotation := by
  cases h0 : f Direction.up <;> cases h1 : f Direction.right <;>
    cases h2 : f Direction.down <;> cases h3 : f Direction.left <;>
    simp [Direction.iterate, List.filter_cons, h0, h1, h2, h3]
      at hne hiff ⊢ <;>
    cases tt <;>
    first
      | exact absurd rfl htt
      | (simp only [ROTATIONS] at hrot; interval_cases rot <;>
          first
            | exact ⟨rfl, rfl⟩
            | exact absurd hiff (by decide))

/-- Claim C4: on a cell whose connecting-neighbor set is `S`,
`fix_pipe_connections` rewrites the tile to Empty when `S` is empty, and
otherwise to exactly one `(variant, rotation)` pair whose connection set
equals `S` (size 1 → LightBulb, size-2 opposite pair → Straight, size-2
adjacent → Elbow, size 3 → TJunction, size 4 → Cross with rotation 0); the
mapping covers every subset arising on any grid and round-trips
neighbor-set → tile → open-direction set. -/
theorem claim_C4_finalizer_roundtrip (game : PuzzleGame) (x y : Int)
    (_hv : is_valid_position game.width game.height (x, y)) :
    (connectingNeighbors game.width game.height game.grid (x, y) = [] →
      ((fix_pipe_connections game x y).grid (x, y)).tile_type =
        TileType.empty) ∧
    (connectingNeighbors game.width game.height game.grid (x, y) ≠ [] →
      (∀ d : Direction,
        d ∈ ((fix_pipe_connections game x y).grid (x, y)).get_connections ↔
          d ∈ connectingNeighbors game.width game.height game.grid (x, y)) ∧
      ((connectingNeighbors game.width game.height game.grid (x, y)).length = 1 →
        ((fix_pipe_connections game x y).grid (x, y)).tile_type =
          TileType.lightBulb) ∧
      ((connectingNeighbors game.width game.height game.grid (x, y)).length = 2 →
        (((Direction.up ∈ connectingNeighbors game.width game.height game.grid (x, y) ∧
            Direction.down ∈ connectingNeighbors game.width game.height game.grid (x, y)) ∨
          (Direction.left ∈ connectingNeighbors game.width game.height game.grid (x, y) ∧
            Direction.right ∈ connectingNeighbors game.width game.height game.grid (x, y))) →
            ((fix_pipe_connections game x y).grid (x, y)).tile_type =
              TileType.straight) ∧
        (¬ ((Direction.up ∈ connectingNeighbors game.width game.height game.grid (x, y) ∧
            Direction.down ∈ connectingNeighbors game.width game.height game.grid (x, y)) ∨
          (Direction.left ∈ connectingNeighbors game.width game.height game.grid (x, y) ∧
            Direction.right ∈ connectingNeighbors game.width game.height game.grid (x, y))) →
            ((fix_pipe_connections game x y).grid (x, y)).tile_type =
              TileType.elbow)) ∧
      ((connectingNeighbors game.width game.height game.grid (x, y)).length = 3 →
        ((fix_pipe_connections game x y).grid (x, y)).tile_type =
          TileType.tJunction) ∧
      ((connectingNeighbors game.width game.height game.grid (x, y)).length = 4 →
        ((fix_pipe_connections game x y).grid (x, y)).tile_type =
          TileType.cross ∧
        ((fix_pipe_connections game x y).grid (x, y)).rotation = 0) ∧
      (∀ (tt : TileType) (rot : Nat), tt ≠ TileType.powerSource →
        rot < ROTATIONS tt →
        (∀ d : Direction,
          d ∈ (CONNECTION_MAPS tt).getD rot [] ↔
            d ∈ connectingNeighbors game.width game.height game.grid (x, y)) →
        tt = ((fix_pipe_connections game x y).grid (x, y)).tile_type ∧
        rot = ((fix_pipe_connections game x y).grid (x, y)).rotation)) := by
  have hread : (fix_pipe_connections game x y).grid (x, y) =
      rewriteTile (connectingNeighbors game.width game.height game.grid (x, y))
        (game.grid (x, y)) := setCell_same _ _ _
  rw [hread]
  have h := rewriteTile_filter_spec
    (fun d =>
      decide (is_valid_position game.width game.height
        (get_neighbor_position (x, y) d)) &&
      (!decide ((game.grid (get_neighbor_position (x, y) d)).tile_type =
          TileType.empty) &&
        (game.grid (get_neighbor_position (x, y) d)).is_connected_to
          (get_opposite_direction d)))
    (game.grid (x, y))
  exact ⟨h.1, fun hne =>
    ⟨(h.2 hne).1, (h.2 hne).2.1, (h.2 hne).2.2.1, (h.2 hne).2.2.2.1,
      (h.2 hne).2.2.2.2,
      fun tt rot htt hrot hiff =>
        rewriteTile_filter_unique _ (game.grid (x, y)) tt rot htt hrot hne
          hiff⟩⟩

/-- Witness for C4 at the middle cell of `game3` (connecting neighbors on
both sides). -/
theorem claim_C4_witness :
    connectingNeighbors game3.width game3.height game3.grid (1, 0) ≠ [] ∧
    ∀ d : Direction,
      d ∈ ((fix_pipe_connections game3 1 0).grid (1, 0)).get_connections ↔
        d ∈ connectingNeighbors game3.width game3.height game3.grid (1, 0) :=
  ⟨by decide,
    ((claim_C4_finalizer_roundtrip game3 1 0 (by decide)).2 (by decide)).1⟩

/-- Claim C8, demonstration of the violating case: on the 1×1 grid holding a
straight pipe with rotation 1, `fix_pipe_connections` finds no connecting
neighbors and rewrites the tile to Empty without resetting its rotation, so
the resulting tile has `rotation = 1 ≥ 1 = ROTATIONS EMPTY` and violates the
data-model invariant (a later `CONNECTION_MAPS[EMPTY][1]` lookup in Python
raises `IndexError`). -/
theorem claim_C8_rotation_invariant_broken :
    Tile.WF (game1.grid (0, 0)) ∧
    ((fix_pipe_connections game1 0 0).grid (0, 0)).tile_type =
      TileType.empty ∧
    ((fix_pipe_connections game1 0 0).grid (0, 0)).rotation = 1 ∧
    ¬ (((fix_pipe_connections game1 0 0).grid (0, 0)).rotation <
        ROTATIONS ((fix_pipe_connections game1 0 0).grid (0, 0)).tile_type) ∧
    ¬ Tile.WF ((fix_pipe_connections game1 0 0).grid (0, 0)) := by
  decide

/-- Counterexample to claim C5 as stated: `handle_click` on an in-bounds
rotatable tile returns `None` (not the updated `is_solved` boolean), and on
an out-of-bounds position it silently returns with the game unchanged
instead of failing with OutOfBounds. -/
theorem claim_C5_counterexample :
    (handle_click game3 (60, 0)).2 = none ∧
    handle_click game3 (300, 0) = (game3, none) :=
  ⟨rfl, rfl⟩

/-- Claim C5 (amended): `handle_click` maps the pixel position to tile
coordinates by integer division by `TILE_SIZE`; on an in-bounds rotatable
tile it applies the rotation and re-runs the solver (storing the updated
`is_solved` inside the returned game) but returns `None`; on an in-bounds
tile of rotation cardinality 1 it is a no-op that does not re-run the
solver and returns `None`; and on an out-of-bounds position it silently
returns `None` with the game unchanged, raising no error. -/
theorem claim_C5_amended_click (game : PuzzleGame) (pos : Nat × Nat) :
    (¬ is_valid_position game.width game.height
        (((pos.1 / TILE_SIZE : Nat) : Int), ((pos.2 / TILE_SIZE : Nat) : Int)) →
      handle_click game pos = (game, none)) ∧
    (is_valid_position game.width game.height
        (((pos.1 / TILE_SIZE : Nat) : Int), ((pos.2 / TILE_SIZE : Nat) : Int)) →
      (1 < (game.grid (((pos.1 / TILE_SIZE : Nat) : Int),
          ((pos.2 / TILE_SIZE : Nat) : Int))).max_rotation →
        handle_click game pos =
          ((update_power_flow
            { game with
                grid := setCell game.grid
                  (((pos.1 / TILE_SIZE : Nat) : Int),
                    ((pos.2 / TILE_SIZE : Nat) : Int))
                  ((game.grid (((pos.1 / TILE_SIZE : Nat) : Int),
                      ((pos.2 / TILE_SIZE : Nat) : Int))).rotate.1) }).1,
            none)) ∧
      ((game.grid (((pos.1 / TILE_SIZE : Nat) : Int),
          ((pos.2 / TILE_SIZE : Nat) : Int))).max_rotation ≤ 1 →
        handle_click game pos = (game, none))) := by
  refine ⟨fun h => ?_, fun h => ⟨fun hrot => ?_, fun hrot => ?_⟩⟩ <;>
    simp only [handle_click]
  · rw [if_pos h]
  · have h2 : ((game.grid (((pos.1 / TILE_SIZE : Nat) : Int),
        ((pos.2 / TILE_SIZE : Nat) : Int))).rotate).2 = true := by
      unfold Tile.rotate; rw [if_pos hrot]
    rw [if_neg (not_not_intro h), if_pos h2]
  · have h2 : ((game.grid (((pos.1 / TILE_SIZE : Nat) : Int),
        ((pos.2 / TILE_SIZE : Nat) : Int))).rotate).2 = false := by
      unfold Tile.rotate; rw [if_neg (Nat.not_lt.mpr hrot)]
    rw [if_neg (not_not_intro h), if_neg (by rw [h2]; exact Bool.false_ne_true)]

/-- Witness for the amended C5: an out-of-bounds click on `game3` and a
click on an empty (cardinality-1) tile of `gameE`, both no-ops returning
`None`. -/
theorem claim_C5_witness :
    handle_click game3 (300, 0) = (game3, none) ∧
    handle_click gameE (0, 0) = (gameE, none) :=
  ⟨(claim_C5_amended_click game3 (300, 0)).1 (by decide),
    ((claim_C5_amended_click gameE (0, 0)).2 (by decide)).2 (by decide)⟩

/-- Helper for C9: the pattern index drawn for a connection count in `1..4`
lies in the matching sub-range of the 13-entry table, and the table entry at
that index has exactly `count` directions. -/
theorem source_pattern_index_spec (count r : Nat) (h1 : 1 ≤ count)
    (h4 : count ≤ 4) :
    patternRange count (source_pattern_index count r) ∧
    (POWER_SOURCE_CONNECTIONS.getD (source_pattern_index count r) []).length
      = count := by
  generalize hk0 : r % 4 = k
  have hk : k < 4 := hk0 ▸ Nat.mod_lt _ (by norm_num)
  interval_cases count <;> interval_cases k <;>
    simp [source_pattern_index, randint, hk0, patternRange,
      POWER_SOURCE_CONNECTIONS]

/-- Helper for C9: the placement loop only ever appends power sources whose
pattern is drawn through `source_pattern_index`, so every recorded source
cell holds a `POWER_SOURCE` tile whose pattern index sits in the sub-range
of its drawn connection count. -/
theorem place_power_sources_sound (n : Nat) (avail : List Pos)
    (draws : List (Nat × Nat)) (game : PuzzleGame)
    (hinv : ∀ p ∈ game.power_sources, ∃ c i,
      1 ≤ c ∧ c ≤ 4 ∧
      (game.grid p).tile_type = TileType.powerSource ∧
      (game.grid p).power_connection_pattern = some i ∧
      patternRange c i ∧
      (POWER_SOURCE_CONNECTIONS.getD i []).length = c) :
    ∀ p ∈ (place_power_sources game n avail draws).power_sources, ∃ c i,
      1 ≤ c ∧ c ≤ 4 ∧
      ((place_power_sources game n avail draws).grid p).tile_type =
        TileType.powerSource ∧
      ((place_power_sources game n avail draws).grid p).power_connection_pattern
        = some i ∧
      patternRange c i ∧
      (POWER_SOURCE_CONNECTIONS.getD i []).length = c := by
  induction n generalizing avail draws game with
  | zero => simpa [place_power_sources] using hinv
  | succ n ih =>
      cases avail with
      | nil => simpa [place_power_sources] using hinv
      | cons p avail =>
          simp only [place_power_sources]
          apply ih
          intro q hq
          by_cases hqp : q = p
          · subst hqp
            simp only [setCell_same]
            have hcount : 1 ≤ randint 1 4 (draws.headD (0, 0)).1 ∧
                randint 1 4 (draws.headD (0, 0)).1 ≤ 4 := by
              have := Nat.mod_lt (draws.headD (0, 0)).1 (show 0 < 4 by norm_num)
              simp only [randint]
              omega
            exact ⟨randint 1 4 (draws.headD (0, 0)).1,
              source_pattern_index (randint 1 4 (draws.headD (0, 0)).1)
                (draws.headD (0, 0)).2,
              hcount.1, hcount.2, rfl, rfl,
              (source_pattern_index_spec _ _ hcount.1 hcount.2).1,
              (source_pattern_index_spec _ _ hcount.1 hcount.2).2⟩
          · simp only [setCell_other _ _ _ _ hqp]
            refine hinv q ?_
            rcases List.mem_append.mp hq with h | h
            · exact h
            · exact absurd (by simpa using h) hqp

/-- Claim C9: for difficulty ≥ 1 the generator targets
`num_sources = 1 + difficulty / 2` sources and
`num_bulbs = 4 + difficulty * 10` bulbs, and every power source placed by
the placement loop carries a pattern index inside the sub-range of the
13-entry table matching its drawn connection count, the table entries of
that sub-range having exactly that many directions. -/
theorem claim_C9_generator_sources (difficulty : Nat) (_hd : 1 ≤ difficulty)
    (game : PuzzleGame) (h0 : game.power_sources = [])
    (avail : List Pos) (draws : List (Nat × Nat)) :
    num_sources difficulty = 1 + difficulty / 2 ∧
    num_bulbs difficulty = 4 + difficulty * 10 ∧
    ∀ p ∈ (place_power_sources game (num_sources difficulty) avail
        draws).power_sources, ∃ c i,
      1 ≤ c ∧ c ≤ 4 ∧
      ((place_power_sources game (num_sources difficulty) avail
          draws).grid p).tile_type = TileType.powerSource ∧
      ((place_power_sources game (num_sources difficulty) avail
          draws).grid p).power_connection_pattern = some i ∧
      patternRange c i ∧
      (POWER_SOURCE_CONNECTIONS.getD i []).length = c :=
  ⟨rfl, rfl, place_power_sources_sound _ _ _ _ (by simp [h0])⟩

/-- Witness for C9: difficulty 1 on the empty 2×2 game with two available
cells and explicit draws. -/
theorem claim_C9_witness :
    num_sources 1 = 1 + 1 / 2 ∧ num_bulbs 1 = 4 + 1 * 10 ∧
    ∀ p ∈ (place_power_sources gameE (num_sources 1)
        [((0 : Int), (0 : Int)), ((1 : Int), (0 : Int))]
        [(0, 17), (3, 5)]).power_sources, ∃ c i,
      1 ≤ c ∧ c ≤ 4 ∧
      ((place_power_sources gameE (num_sources 1)
          [((0 : Int), (0 : Int)), ((1 : Int), (0 : Int))]
          [(0, 17), (3, 5)]).grid p).tile_type = TileType.powerSource ∧
      ((place_power_sources gameE (num_sources 1)
          [((0 : Int), (0 : Int)), ((1 : Int), (0 : Int))]
          [(0, 17), (3, 5)]).grid p).power_connection_pattern = some i ∧
      patternRange c i ∧
      (POWER_SOURCE_CONNECTIONS.getD i []).length = c :=
  claim_C9_generator_sources 1 (by decide) gameE rfl _ _

/-! ### Solver infrastructure: preservation, reachability congruence,
cell counting, and the inner neighbor-scan loop -/

/-- Marking a tile powered and used does not change its connections. -/
theorem markTile_connections (t : Tile) :
    (markTile t).get_connections = t.get_connections := rfl

/-- Resetting a tile's flags does not change its connections. -/
theorem resetTile_connections (t : Tile) :
    (resetTile t).get_connections = t.get_connections := rfl

/-- Marking the popped cell changes no cell's connections. -/
theorem setCell_mark_connections (g : Grid) (p0 x : Pos) :
    ((setCell g p0 (markTile (g p0))) x).get_connections =
      (g x).get_connections := by
  by_cases hx : x = p0
  · subst hx
    rw [setCell_same]
    exact markTile_connections _
  · rw [setCell_other _ _ _ _ hx]

/-- Reciprocal edges only depend on connections. -/
theorem Edge_congr (w h : Nat) (g g' : Grid)
    (hc : ∀ x, (g' x).get_connections = (g x).get_connections) (p q : Pos) :
    Edge w h g' p q ↔ Edge w h g p q := by
  constructor
  · rintro ⟨d, h1, h2, h3, h4⟩
    rw [hc] at h1 h4
    exact ⟨d, h1, h2, h3, h4⟩
  · rintro ⟨d, h1, h2, h3, h4⟩
    rw [← hc p] at h1
    rw [← hc q] at h4
    exact ⟨d, h1, h2, h3, h4⟩

/-- Reachability only depends on connections. -/
theorem Reach_congr (w h : Nat) (g g' : Grid)
    (hc : ∀ x, (g' x).get_connections = (g x).get_connections)
    (srcs : List Pos) (p : Pos) :
    Reach w h g' srcs p ↔ Reach w h g srcs p := by
  constructor <;> intro hr
  · induction hr with
    | src p hp => exact Reach.src p hp
    | step p q _ he ih =>
        exact Reach.step p q ih ((Edge_congr w h g g' hc p q).mp he)
  · induction hr with
    | src p hp => exact Reach.src p hp
    | step p q _ he ih =>
        exact Reach.step p q ih ((Edge_congr w h g g' hc p q).mpr he)

/-- Reachability only depends on which cells are sources, not on their
order or multiplicity in the source list. -/
theorem Reach_mem_congr (w h : Nat) (g : Grid) (srcs srcs' : List Pos)
    (hmem : ∀ s, s ∈ srcs' ↔ s ∈ srcs) (p : Pos) :
    Reach w h g srcs' p ↔ Reach w h g srcs p := by
  constructor <;> intro hr
  · induction hr with
    | src p hp => exact Reach.src p ((hmem p).mp hp)
    | step p q _ he ih => exact Reach.step p q ih he
  · induction hr with
    | src p hp => exact Reach.src p ((hmem p).mpr hp)
    | step p q _ he ih => exact Reach.step p q ih he

/-- `validCells` contains exactly the in-bounds positions. -/
theorem mem_validCells (w h : Nat) (p : Pos) :
    p ∈ validCells w h ↔ is_valid_position w h p := by
  cases p with
  | mk a b =>
      rw [validCells, Finset.mem_product, Finset.mem_Icc, Finset.mem_Icc]
      unfold is_valid_position
      dsimp only
      omega

/-- There are `w * h` in-bounds cells. -/
theorem validCells_card (w h : Nat) : (validCells w h).card = w * h := by
  have hw : (Finset.Icc (0 : Int) ((w : Int) - 1)).card = w := by
    rw [Int.card_Icc]; omega
  have hh : (Finset.Icc (0 : Int) ((h : Int) - 1)).card = h := by
    rw [Int.card_Icc]; omega
  rw [validCells, Finset.card_product, hw, hh]

/-- Extending the visited list by fresh valid cells decreases the count of
unvisited valid cells by exactly their number. -/
theorem card_unvisited_append (w h : Nat) (v new : List Pos)
    (hnodup : new.Nodup) (hnotv : ∀ x ∈ new, x ∉ v)
    (hvalid : ∀ x ∈ new, is_valid_position w h x) :
    (validCells w h \ (v ++ new).toFinset).card + new.length =
      (validCells w h \ v.toFinset).card := by
  have hsub : new.toFinset ⊆ validCells w h \ v.toFinset := by
    intro x hx
    rw [List.mem_toFinset] at hx
    rw [Finset.mem_sdiff, mem_validCells, List.mem_toFinset]
    exact ⟨hvalid x hx, hnotv x hx⟩
  have h1 : validCells w h \ (v ++ new).toFinset =
      (validCells w h \ v.toFinset) \ new.toFinset := by
    ext x
    simp only [Finset.mem_sdiff, List.mem_toFinset, List.mem_append]
    tauto
  have h2 := Finset.card_le_card hsub
  rw [List.toFinset_card_of_nodup hnodup] at h2
  rw [h1, Finset.card_sdiff hsub, List.toFinset_card_of_nodup hnodup]
  omega

/-- Specification of one pass of the solver's neighbor scan at popped cell
`p`: the queue and the visited list receive the same fresh block `new` of
in-bounds, unvisited, reciprocally connected neighbors, and afterwards every
reciprocally connected in-bounds neighbor of `p` is visited. -/
theorem bfsConsider_foldl (g : Grid) (w h : Nat) (p : Pos)
    (L : List Direction) :
    ∀ (q v : List Pos),
    ∃ new : List Pos,
      (L.foldl (bfsConsider g w h p) (q, v)).1 = q ++ new ∧
      (L.foldl (bfsConsider g w h p) (q, v)).2 = v ++ new ∧
      new.Nodup ∧
      (∀ x ∈ new, x ∉ v) ∧
      (∀ x ∈ new, is_valid_position w h x ∧
        ∃ d ∈ L, x = get_neighbor_position p d ∧
          (g x).is_connected_to (get_opposite_direction d) = true) ∧
      (∀ d ∈ L, is_valid_position w h (get_neighbor_position p d) →
        (g (get_neighbor_position p d)).is_connected_to
          (get_opposite_direction d) = true →
        get_neighbor_position p d ∈ (L.foldl (bfsConsider g w h p) (q, v)).2)
    := by
  induction L with
  | nil =>
      intro q v
      exact ⟨[], by simp, by simp, List.nodup_nil, by simp, by simp, by simp⟩
  | cons d L ih =>
      intro q v
      rw [List.foldl_cons]
      by_cases hc1 : ¬ is_valid_position w h (get_neighbor_position p d) ∨
          get_neighbor_position p d ∈ v
      · have hstep : bfsConsider g w h p (q, v) d = (q, v) := by
          unfold bfsConsider
          rw [if_pos hc1]
        rw [hstep]
        obtain ⟨new, h1, h2, h3, h4, h5, h6⟩ := ih q v
        refine ⟨new, h1, h2, h3, h4, ?_, ?_⟩
        · intro x hx
          obtain ⟨hval, d', hd', hrest⟩ := h5 x hx
          exact ⟨hval, d', List.mem_cons_of_mem _ hd', hrest⟩
        · intro d' hd' hval hrecip
          rcases List.mem_cons.mp hd' with rfl | hd'
          · rcases hc1 with hc1 | hc1
            · exact absurd hval hc1
            · rw [h2]
              exact List.mem_append_left _ hc1
          · exact h6 d' hd' hval hrecip
      · push_neg at hc1
        obtain ⟨hval, hnotv⟩ := hc1
        by_cases hc2 : (g (get_neighbor_position p d)).is_connected_to
            (get_opposite_direction d) = true
        · have hstep : bfsConsider g w h p (q, v) d =
              (q ++ [get_neighbor_position p d],
                v ++ [get_neighbor_position p d]) := by
            unfold bfsConsider
            rw [if_neg (by push_neg; exact ⟨hval, hnotv⟩), if_pos hc2]
          rw [hstep]
          obtain ⟨new, h1, h2, h3, h4, h5, h6⟩ :=
            ih (q ++ [get_neighbor_position p d])
              (v ++ [get_neighbor_position p d])
          refine ⟨get_neighbor_position p d :: new, ?_, ?_, ?_, ?_, ?_, ?_⟩
          · rw [h1, List.append_assoc]
            rfl
          · rw [h2, List.append_assoc]
            rfl
          · refine List.nodup_cons.mpr ⟨fun hmem => ?_, h3⟩
            exact h4 _ hmem (List.mem_append_right _ (List.mem_singleton.mpr rfl))
          · intro x hx
            rcases List.mem_cons.mp hx with rfl | hx
            · exact hnotv
            · intro hxv
              exact h4 x hx (List.mem_append_left _ hxv)
          · intro x hx
            rcases List.mem_cons.mp hx with rfl | hx
            · exact ⟨hval, d, List.mem_cons_self d L, rfl, hc2⟩
            · obtain ⟨hval', d', hd', hrest⟩ := h5 x hx
              exact ⟨hval', d', List.mem_cons_of_mem _ hd', hrest⟩
          · intro d' hd' hval' hrecip
            rcases List.mem_cons.mp hd' with rfl | hd'
            · rw [h2]
              exact List.mem_append_left _
                (List.mem_append_right _ (List.mem_singleton.mpr rfl))
            · exact h6 d' hd' hval' hrecip
        · have hstep : bfsConsider g w h p (q, v) d = (q, v) := by
            unfold bfsConsider
            rw [if_neg (by push_neg; exact ⟨hval, hnotv⟩), if_neg hc2]
          rw [hstep]
          obtain ⟨new, h1, h2, h3, h4, h5, h6⟩ := ih q v
          refine ⟨new, h1, h2, h3, h4, ?_, ?_⟩
          · intro x hx
            obtain ⟨hval', d', hd', hrest⟩ := h5 x hx
            exact ⟨hval', d', List.mem_cons_of_mem _ hd', hrest⟩
          · intro d' hd' hval' hrecip
            rcases List.mem_cons.mp hd' with rfl | hd'
            · exact absurd hrecip hc2
            · exact h6 d' hd' hval' hrecip

/-- Marking is idempotent. -/
theorem markTile_idem (t : Tile) : markTile (markTile t) = markTile t := rfl

/-- A marked tile is used. -/
theorem markTile_used (t : Tile) : (markTile t).used_in_solution = true := rfl

/-- Invariant lemma for the solver's while loop.  Under the stated
invariants on `(g, queue, vis)` — the queue is inside the visited list, all
queued cells satisfy the abstract reachability predicate `R` (closed under
reciprocal edges of the reference grid `g0`), visited cells are used or
queued, used cells are visited and have all their edge successors visited,
and the fuel dominates the measure `|queue| + |unvisited valid cells|` — the
loop terminates with: the visited list grown monotonically, sound for `R`,
equal to the set of used cells, closed under reciprocal edges, and the grid
changed only by marking cells powered and used. -/
theorem bfsRun_spec (w h : Nat) (g0 : Grid) (R : Pos → Prop)
    (hRclosed : ∀ p q, R p → Edge w h g0 p q → R q) :
    ∀ (fuel : Nat) (g : Grid) (queue vis : List Pos),
    (∀ x, (g x).get_connections = (g0 x).get_connections) →
    queue.length + (validCells w h \ vis.toFinset).card ≤ fuel →
    (∀ x ∈ queue, x ∈ vis) →
    (∀ x ∈ queue, R x) →
    (∀ x ∈ vis, (g x).used_in_solution = true ∨ x ∈ queue) →
    (∀ x, (g x).used_in_solution = true → x ∈ vis) →
    (∀ x, (g x).used_in_solution = true →
      ∀ q, Edge w h g0 x q → q ∈ vis) →
    (∀ x ∈ vis, x ∈ (bfsRun w h fuel g queue vis).2) ∧
    (∀ x ∈ (bfsRun w h fuel g queue vis).2, x ∈ vis ∨ R x) ∧
    (∀ x ∈ (bfsRun w h fuel g queue vis).2,
      ((bfsRun w h fuel g queue vis).1 x).used_in_solution = true) ∧
    (∀ x, ((bfsRun w h fuel g queue vis).1 x).used_in_solution = true →
      x ∈ (bfsRun w h fuel g queue vis).2) ∧
    (∀ x, ((bfsRun w h fuel g queue vis).1 x).used_in_solution = true →
      ∀ q, Edge w h g0 x q → q ∈ (bfsRun w h fuel g queue vis).2) ∧
    (∀ x, (bfsRun w h fuel g queue vis).1 x = g x ∨
      (bfsRun w h fuel g queue vis).1 x = markTile (g x)) := by
  intro fuel
  induction fuel with
  | zero =>
      intro g queue vis hg hfuel hq_vis hq_R hvis hused hclosed
      have hqnil : queue = [] := by
        cases queue with
        | nil => rfl
        | cons a l => exfalso; rw [List.length_cons] at hfuel; omega
      subst hqnil
      simp only [bfsRun]
      refine ⟨fun x hx => hx, fun x hx => Or.inl hx, ?_, hused, hclosed,
        fun x => Or.inl trivial⟩
      intro x hx
      rcases hvis x hx with h | h
      · exact h
      · exact absurd h (List.not_mem_nil x)
  | succ fuel ih =>
      intro g queue vis hg hfuel hq_vis hq_R hvis hused hclosed
      cases queue with
      | nil =>
          simp only [bfsRun]
          refine ⟨fun x hx => hx, fun x hx => Or.inl hx, ?_, hused, hclosed,
            fun x => Or.inl trivial⟩
          intro x hx
          rcases hvis x hx with h | h
          · exact h
          · exact absurd h (List.not_mem_nil x)
      | cons p rest =>
          obtain ⟨new, h1, h2, h3, h4, h5, h6⟩ :=
            bfsConsider_foldl (setCell g p (markTile (g p))) w h p
              ((markTile (g p)).get_connections) rest vis
          have hg1conns : ∀ x,
              ((setCell g p (markTile (g p))) x).get_connections =
                (g0 x).get_connections :=
            fun x => (setCell_mark_connections g p x).trans (hg x)
          have hLconns : (markTile (g p)).get_connections =
              (g0 p).get_connections :=
            (markTile_connections (g p)).trans (hg p)
          have hg1used : ∀ x,
              ((setCell g p (markTile (g p))) x).used_in_solution = true ↔
                (x = p ∨ (g x).used_in_solution = true) := by
            intro x
            by_cases hx : x = p
            · subst hx
              rw [setCell_same]
              simp [markTile_used]
            · rw [setCell_other _ _ _ _ hx]
              simp [hx]
          have hnewR : ∀ x ∈ new, R x := by
            intro x hx
            obtain ⟨hval, d, hd, hxeq, hrecip⟩ := h5 x hx
            rw [hLconns] at hd
            have hopp : get_opposite_direction d ∈ (g0 x).get_connections := by
              have := of_decide_eq_true hrecip
              rwa [hg1conns] at this
            exact hRclosed p x (hq_R p (List.mem_cons_self p rest))
              ⟨d, hd, hxeq, hxeq ▸ hval, hopp⟩
          simp only [bfsRun]
          rw [h1, h2]
          have hmain := ih (setCell g p (markTile (g p))) (rest ++ new)
            (vis ++ new) hg1conns ?_ ?_ ?_ ?_ ?_ ?_
          · obtain ⟨c1, c2, c3, c4, c5, c6⟩ := hmain
            refine ⟨?_, ?_, c3, c4, c5, ?_⟩
            · intro x hx
              exact c1 x (List.mem_append_left _ hx)
            · intro x hx
              rcases c2 x hx with hx' | hx'
              · rcases List.mem_append.mp hx' with hx'' | hx''
                · exact Or.inl hx''
                · exact Or.inr (hnewR x hx'')
              · exact Or.inr hx'
            · intro x
              rcases c6 x with hx | hx <;> by_cases hxp : x = p
              · subst hxp
                rw [hx, setCell_same]
                exact Or.inr rfl
              · rw [hx, setCell_other _ _ _ _ hxp]
                exact Or.inl rfl
              · subst hxp
                rw [hx, setCell_same, markTile_idem]
                exact Or.inr rfl
              · rw [hx, setCell_other _ _ _ _ hxp]
                exact Or.inr rfl
          · -- fuel measure
            have harith := card_unvisited_append w h vis new h3 h4
              (fun x hx => (h5 x hx).1)
            rw [List.length_append]
            rw [List.length_cons] at hfuel
            omega
          · -- queue inside visited
            intro x hx
            rcases List.mem_append.mp hx with hx' | hx'
            · exact List.mem_append_left _
                (hq_vis x (List.mem_cons_of_mem _ hx'))
            · exact List.mem_append_right _ hx'
          · -- queue satisfies R
            intro x hx
            rcases List.mem_append.mp hx with hx' | hx'
            · exact hq_R x (List.mem_cons_of_mem _ hx')
            · exact hnewR x hx'
          · -- visited cells used or queued
            intro x hx
            rcases List.mem_append.mp hx with hx' | hx'
            · rcases hvis x hx' with hx'' | hx''
              · exact Or.inl ((hg1used x).mpr (Or.inr hx''))
              · rcases List.mem_cons.mp hx'' with rfl | hx''
                · exact Or.inl ((hg1used x).mpr (Or.inl rfl))
                · exact Or.inr (List.mem_append_left _ hx'')
            · exact Or.inr (List.mem_append_right _ hx')
          · -- used cells visited
            intro x hx
            rcases (hg1used x).mp hx with rfl | hx'
            · exact List.mem_append_left _ (hq_vis x (List.mem_cons_self x rest))
            · exact List.mem_append_left _ (hused x hx')
          · -- used cells edge-closed into visited
            intro x hx q hq
            rcases (hg1used x).mp hx with hxp | hx'
            · subst hxp
              obtain ⟨d, hd, hqeq, hqval, hopp⟩ := hq
              have hdL : d ∈ (markTile (g x)).get_connections := by
                rw [hLconns]
                exact hd
              have hrecip : ((setCell g x (markTile (g x)))
                  (get_neighbor_position x d)).is_connected_to
                    (get_opposite_direction d) = true := by
                rw [Tile.is_connected_to]
                apply decide_eq_true
                rw [hg1conns, ← hqeq]
                exact hopp
              have hmem := h6 d hdL (hqeq ▸ hqval) hrecip
              rw [h2] at hmem
              rw [hqeq]
              exact hmem
            · exact List.mem_append_left _ (hclosed x hx' q hq)

/-- Invariant lemma for the solver's per-source loop: with enough fuel for
each run, after processing all sources the visited list contains the
previous visited cells and every source, visited cells are exactly the used
cells, every visited cell is reachable from the full source list, the used
set is closed under reciprocal edges, and the grid changed only by marking
cells. -/
theorem runSources_spec (w h fuel : Nat) (g0 : Grid) (srcsAll : List Pos)
    (hfuel : w * h + 1 ≤ fuel) :
    ∀ (srcs : List Pos) (g : Grid) (vis : List Pos),
    (∀ s ∈ srcs, s ∈ srcsAll) →
    (∀ x, (g x).get_connections = (g0 x).get_connections) →
    (∀ x ∈ vis, (g x).used_in_solution = true) →
    (∀ x ∈ vis, Reach w h g0 srcsAll x) →
    (∀ x, (g x).used_in_solution = true → x ∈ vis) →
    (∀ x, (g x).used_in_solution = true → ∀ q, Edge w h g0 x q → q ∈ vis) →
    (∀ x ∈ vis, x ∈ (runSources w h fuel srcs g vis).2) ∧
    (∀ s ∈ srcs, s ∈ (runSources w h fuel srcs g vis).2) ∧
    (∀ x ∈ (runSources w h fuel srcs g vis).2,
      ((runSources w h fuel srcs g vis).1 x).used_in_solution = true) ∧
    (∀ x ∈ (runSources w h fuel srcs g vis).2, Reach w h g0 srcsAll x) ∧
    (∀ x, ((runSources w h fuel srcs g vis).1 x).used_in_solution = true →
      x ∈ (runSources w h fuel srcs g vis).2) ∧
    (∀ x, ((runSources w h fuel srcs g vis).1 x).used_in_solution = true →
      ∀ q, Edge w h g0 x q → q ∈ (runSources w h fuel srcs g vis).2) ∧
    (∀ x, (runSources w h fuel srcs g vis).1 x = g x ∨
      (runSources w h fuel srcs g vis).1 x = markTile (g x)) := by
  intro srcs
  induction srcs with
  | nil =>
      intro g vis hsrcs hg hvisUsed hvisReach hused hclosed
      simp only [runSources]
      exact ⟨fun x hx => hx, fun s hs => absurd hs (List.not_mem_nil s),
        hvisUsed, hvisReach, hused, hclosed, fun x => Or.inl trivial⟩
  | cons s rest ih =>
      intro g vis hsrcs hg hvisUsed hvisReach hused hclosed
      simp only [runSources]
      have hv1 : ∃ vis1, (if s ∈ vis then vis else vis ++ [s]) = vis1 ∧
          (∀ x ∈ vis, x ∈ vis1) ∧ s ∈ vis1 ∧
          (∀ x ∈ vis1, x ∈ vis ∨ x = s) := by
        by_cases hsv : s ∈ vis
        · exact ⟨vis, if_pos hsv, fun x hx => hx, hsv, fun x hx => Or.inl hx⟩
        · refine ⟨vis ++ [s], if_neg hsv,
            fun x hx => List.mem_append_left _ hx,
            List.mem_append_right _ (List.mem_singleton.mpr rfl), ?_⟩
          intro x hx
          rcases List.mem_append.mp hx with hx | hx
          · exact Or.inl hx
          · exact Or.inr (List.mem_singleton.mp hx)
      obtain ⟨vis1, hv1eq, hsub1, hs1, hcases1⟩ := hv1
      rw [hv1eq]
      obtain ⟨b1, b2, b3, b4, b5, b6⟩ :=
        bfsRun_spec w h g0 (Reach w h g0 srcsAll)
          (fun p q hp he => Reach.step p q hp he)
          fuel g [s] vis1 hg
          (by
            have hcard : (validCells w h \ vis1.toFinset).card ≤ w * h := by
              calc (validCells w h \ vis1.toFinset).card
                  ≤ (validCells w h).card :=
                    Finset.card_le_card (Finset.sdiff_subset)
                _ = w * h := validCells_card w h
            rw [List.length_singleton]
            omega)
          (by
            intro x hx
            rw [List.mem_singleton.mp hx]
            exact hs1)
          (by
            intro x hx
            rw [List.mem_singleton.mp hx]
            exact Reach.src s (hsrcs s (List.mem_cons_self s rest)))
          (by
            intro x hx
            rcases hcases1 x hx with hx' | hx'
            · exact Or.inl (hvisUsed x hx')
            · exact Or.inr (List.mem_singleton.mpr hx'))
          (by
            intro x hx
            exact hsub1 x (hused x hx))
          (by
            intro x hx q hq
            exact hsub1 q (hclosed x hx q hq))
      obtain ⟨r1, r2, r3, r4, r5, r6, r7⟩ :=
        ih ((bfsRun w h fuel g [s] vis1).1) ((bfsRun w h fuel g [s] vis1).2)
          (fun x hx => hsrcs x (List.mem_cons_of_mem _ hx))
          (by
            intro x
            rcases b6 x with hx | hx
            · rw [hx]; exact hg x
            · rw [hx, markTile_connections]; exact hg x)
          b3
          (by
            intro x hx
            rcases b2 x hx with hx' | hx'
            · rcases hcases1 x hx' with hx'' | hx''
              · exact hvisReach x hx''
              · rw [hx'']
                exact Reach.src s (hsrcs s (List.mem_cons_self s rest))
            · exact hx')
          b4 b5
      refine ⟨?_, ?_, r3, r4, r5, r6, ?_⟩
      · intro x hx
        exact r1 x (b1 x (hsub1 x hx))
      · intro x hx
        rcases List.mem_cons.mp hx with rfl | hx'
        · exact r1 x (b1 x hs1)
        · exact r2 x hx'
      · intro x
        rcases r7 x with hx | hx <;> rcases b6 x with hy | hy
        · rw [hx, hy]
          exact Or.inl rfl
        · rw [hx, hy]
          exact Or.inr rfl
        · rw [hx, hy]
          exact Or.inr rfl
        · rw [hx, hy, markTile_idem]
          exact Or.inr rfl

/-- Characterization of the grid produced by `update_power_flow`: a cell is
used exactly when it is reachable from some source through reciprocal edges,
and every cell is either merely reset or reset-then-marked. -/
theorem update_power_flow_grid_spec (game : PuzzleGame) :
    (∀ p : Pos, (((update_power_flow game).1.grid p).used_in_solution = true ↔
      Reach game.width game.height game.grid game.power_sources p)) ∧
    (∀ p : Pos, (update_power_flow game).1.grid p = resetTile (game.grid p) ∨
      (update_power_flow game).1.grid p =
        markTile (resetTile (game.grid p))) := by
  have hconns : ∀ x, ((resetGrid game.grid) x).get_connections =
      (game.grid x).get_connections := fun x => resetTile_connections _
  obtain ⟨r1, r2, r3, r4, r5, r6, r7⟩ :=
    runSources_spec game.width game.height
      (game.width * game.height + 1) game.grid game.power_sources
      (le_refl _) game.power_sources (resetGrid game.grid) []
      (fun s hs => hs) hconns
      (fun x hx => absurd hx (List.not_mem_nil x))
      (fun x hx => absurd hx (List.not_mem_nil x))
      (fun x hx => absurd hx Bool.false_ne_true)
      (fun x hx => absurd hx Bool.false_ne_true)
  constructor
  · intro p
    constructor
    · intro hu
      exact r4 p (r5 p hu)
    · intro hr
      induction hr with
      | src q hq => exact r3 q (r2 q hq)
      | step a b _ he iha => exact r3 b (r6 a iha b he)
  · intro p
    exact r7 p

/-- Claim C1: after `update_power_flow`, a cell is `used_in_solution`
exactly when it is reachable from some power-source cell through reciprocally
open edges, so the marking is independent of the traversal order among
sources and branches (it only depends on which cells are sources). -/
theorem claim_C1_power_flow_reachability (game : PuzzleGame)
    (_hWF : GridWF game)
    (_hs : ∀ s ∈ game.power_sources,
      is_valid_position game.width game.height s)
    (p : Pos) (_hp : is_valid_position game.width game.height p) :
    (((update_power_flow game).1.grid p).used_in_solution = true ↔
      Reach game.width game.height game.grid game.power_sources p) ∧
    (∀ srcs' : List Pos, (∀ s, s ∈ srcs' ↔ s ∈ game.power_sources) →
      ((update_power_flow
        { game with power_sources := srcs' }).1.grid p).used_in_solution =
        ((update_power_flow game).1.grid p).used_in_solution) := by
  refine ⟨(update_power_flow_grid_spec game).1 p, ?_⟩
  intro srcs' hmem
  have h1 := (update_power_flow_grid_spec game).1 p
  have h2 :=
    (update_power_flow_grid_spec { game with power_sources := srcs' }).1 p
  have h3 : Reach game.width game.height game.grid srcs' p ↔
      Reach game.width game.height game.grid game.power_sources p :=
    Reach_mem_congr _ _ _ _ _ hmem p
  have hAB := h2.trans (h3.trans h1.symm)
  cases hA : ((update_power_flow
      { game with power_sources := srcs' }).1.grid p).used_in_solution <;>
    cases hB : ((update_power_flow game).1.grid p).used_in_solution
  · rfl
  · exact absurd (hA ▸ hAB.mpr hB) Bool.false_ne_true
  · exact absurd (hB ▸ hAB.mp hA) Bool.false_ne_true
  · rfl

/-- Witness for C1: the bulb cell of `game3` is marked used and is indeed
reachable from the source. -/
theorem claim_C1_witness :
    GridWF game3 ∧
    (((update_power_flow game3).1.grid (2, 0)).used_in_solution = true ↔
      Reach game3.width game3.height game3.grid game3.power_sources (2, 0)) :=
  ⟨by decide,
    (claim_C1_power_flow_reachability game3 (by decide) (by decide) (2, 0)
      (by decide)).1⟩

/-- Claim C10: immediately after `update_power_flow`, every cell whose tile
is not a power source has `is_powered` equal to `used_in_solution`, and
every cell in the `power_sources` list has both flags set. -/
theorem claim_C10_powered_used_consistency (game : PuzzleGame)
    (_hWF : GridWF game)
    (_hs : ∀ s ∈ game.power_sources,
      is_valid_position game.width game.height s) :
    (∀ x : Nat, x < game.width → ∀ y : Nat, y < game.height →
      ((update_power_flow game).1.grid ((x : Int), (y : Int))).tile_type ≠
        TileType.powerSource →
      ((update_power_flow game).1.grid ((x : Int), (y : Int))).is_powered =
        ((update_power_flow game).1.grid
          ((x : Int), (y : Int))).used_in_solution) ∧
    (∀ s ∈ game.power_sources,
      ((update_power_flow game).1.grid s).is_powered = true ∧
      ((update_power_flow game).1.grid s).used_in_solution = true) := by
  obtain ⟨hiff, hshape⟩ := update_power_flow_grid_spec game
  constructor
  · intro x hx y hy htype
    rcases hshape ((x : Int), (y : Int)) with hc | hc
    · rw [hc] at htype ⊢
      have htype' : (game.grid ((x : Int), (y : Int))).tile_type ≠
          TileType.powerSource := htype
      show (if (game.grid ((x : Int), (y : Int))).tile_type =
          TileType.powerSource then
            (game.grid ((x : Int), (y : Int))).is_powered
          else false) = false
      rw [if_neg htype']
    · rw [hc]
      rfl
  · intro s hsmem
    have hused : ((update_power_flow game).1.grid s).used_in_solution = true :=
      (hiff s).mpr (Reach.src s hsmem)
    rcases hshape s with hc | hc
    · rw [hc] at hused
      exact absurd hused Bool.false_ne_true
    · rw [hc]
      exact ⟨rfl, rfl⟩

/-- Witness for C10 at `game3`. -/
theorem claim_C10_witness :
    GridWF game3 ∧
    ∀ s ∈ game3.power_sources,
      ((update_power_flow game3).1.grid s).is_powered = true ∧
      ((update_power_flow game3).1.grid s).used_in_solution = true :=
  ⟨by decide,
    (claim_C10_powered_used_consistency game3 (by decide) (by decide)).2⟩

/-- `check_no_leaks` computes exactly the specification predicate
`NoLeaks`. -/
theorem check_no_leaks_iff (w h : Nat) (g : Grid) :
    check_no_leaks w h g = true ↔ NoLeaks w h g := by
  simp only [check_no_leaks, leakFreeCell, NoLeaks, Tile.is_connected_to,
    List.all_eq_true, List.mem_range, Bool.or_eq_true, Bool.not_eq_true',
    Bool.and_eq_true, decide_eq_true_eq, Bool.not_eq_true,
    decide_eq_false_iff_not]
  constructor
  · intro H x hx y hy hpow d hd
    rcases H y hy x hx with hc | hc
    · rw [hpow] at hc
      cases hc
    · exact hc d hd
  · intro H y hy x hx
    cases hpow : (g ((x : Int), (y : Int))).is_powered
    · exact Or.inl rfl
    · exact Or.inr (fun d hd => H x hx y hy hpow d hd)

/-- Claim C2: `check_no_leaks` returns `true` exactly when every powered
tile's every open direction points to an in-bounds, non-Empty neighbor that
reciprocates — and it returns `false` exactly when some powered tile has an
open edge terminating at the grid boundary, at an Empty tile, or at a
non-reciprocating neighbor. -/
theorem claim_C2_no_leaks_characterization (game : PuzzleGame)
    (_hWF : GridWF game) :
    (check_no_leaks game.width game.height game.grid = true ↔
      NoLeaks game.width game.height game.grid) ∧
    (check_no_leaks game.width game.height game.grid = false ↔
      ∃ x : Nat, x < game.width ∧ ∃ y : Nat, y < game.height ∧
        (game.grid ((x : Int), (y : Int))).is_powered = true ∧
        ∃ d ∈ (game.grid ((x : Int), (y : Int))).get_connections,
          (¬ is_valid_position game.width game.height
              (get_neighbor_position ((x : Int), (y : Int)) d) ∨
            (game.grid
              (get_neighbor_position ((x : Int), (y : Int)) d)).tile_type =
              TileType.empty ∨
            get_opposite_direction d ∉
              (game.grid
                (get_neighbor_position ((x : Int), (y : Int)) d)).get_connections)) := by
  refine ⟨check_no_leaks_iff _ _ _, ?_⟩
  rw [Bool.eq_false_iff, Ne, check_no_leaks_iff]
  constructor
  · intro hn
    by_contra hno
    push_neg at hno
    apply hn
    intro x hx y hy hpow d hd
    have h3 := hno x hx y hy hpow d hd
    tauto
  · rintro ⟨x, hx, y, hy, hpow, d, hd, hbad⟩ hN
    have := hN x hx y hy hpow d hd
    tauto

/-- Witness for C2 at `game3`. -/
theorem claim_C2_witness :
    GridWF game3 ∧
    (check_no_leaks game3.width game3.height game3.grid = true ↔
      NoLeaks game3.width game3.height game3.grid) :=
  ⟨by decide, (claim_C2_no_leaks_characterization game3 (by decide)).1⟩

/-- Claim C3: `update_power_flow` returns, and stores in `is_solved`, the
conjunction of exactly three predicates evaluated on the post-propagation
grid: all bulbs powered, every cell Empty-or-used, and `check_no_leaks`. -/
theorem claim_C3_solved_three_predicates (game : PuzzleGame)
    (_hWF : GridWF game)
    (_hb : ∀ b ∈ game.bulbs, is_valid_position game.width game.height b) :
    (update_power_flow game).1.is_solved = (update_power_flow game).2 ∧
    ((update_power_flow game).2 = true ↔
      ((∀ b ∈ game.bulbs,
          ((update_power_flow game).1.grid b).is_powered = true) ∧
        (∀ x : Nat, x < game.width → ∀ y : Nat, y < game.height →
          ((update_power_flow game).1.grid ((x : Int), (y : Int))).tile_type =
            TileType.empty ∨
          ((update_power_flow game).1.grid
            ((x : Int), (y : Int))).used_in_solution = true) ∧
        check_no_leaks game.width game.height
          ((update_power_flow game).1.grid) = true)) := by
  refine ⟨rfl, ?_⟩
  show (List.all _ _ && (_ && _)) = true ↔ _
  simp only [Bool.and_eq_true, List.all_eq_true, List.mem_range,
    Bool.or_eq_true, decide_eq_true_eq]
  constructor
  · rintro ⟨h1, h2, h3⟩
    exact ⟨h1, fun x hx y hy => (h2 y hy x hx).symm, h3⟩
  · rintro ⟨h1, h2, h3⟩
    exact ⟨h1, fun y hy x hx => (h2 x hx y hy).symm, h3⟩

/-- Witness for C3 at `game3` (which is solved as constructed). -/
theorem claim_C3_witness :
    GridWF game3 ∧ (update_power_flow game3).2 = true ∧
    (update_power_flow game3).1.is_solved = (update_power_flow game3).2 :=
  ⟨by decide, by decide,
    (claim_C3_solved_three_predicates game3 (by decide) (by decide)).1⟩

end LBPP
